import Mathlib

/-!
Verification of the fan-out API gateway in `project_y.py`.

The embedding below translates the gateway's data model and operations into
Lean. Python `bytes` become `List Nat` (each entry a byte value), Python
`dict`s become insertion-ordered association lists over `String` keys, and the
stdlib functions the gateway relies on (`json.loads`, `bytes.decode("utf-8")`,
`json.dumps`, `str.strip`) are modelled as executable Lean functions.
Exceptions are modelled by `Option`: `none` means the Python code raised.
-/

set_option autoImplicit false

namespace ProjectY

/-- JSON values as produced by Python's `json.loads`. Numbers keep their
source lexeme (Python distinguishes int/float; no claim depends on numeric
semantics, only on parse success and value identity). Objects are
insertion-ordered key/value lists with unique keys, as Python dicts are. -/
inductive Json where
  | null : Json
  | bool : Bool → Json
  | num : String → Json
  | str : String → Json
  | arr : List Json → Json
  | obj : List (String × Json) → Json

/-- Last value bound to key `k` in the pair list, defaulting to `d`.
Models the fact that later assignments to a Python dict key overwrite
earlier ones. -/
def lastVal {α : Type} (k : String) : List (String × α) → α → α
  | [], d => d
  | (k2, v) :: rest, d => lastVal k rest (if k2 = k then v else d)

/-- One step of Python-dict normalisation of a pair list (fuelled). -/
def dictOfLoop {α : Type} : Nat → List (String × α) → List (String × α)
  | 0, _ => []
  | _ + 1, [] => []
  | fuel + 1, (k, v) :: rest =>
      (k, lastVal k rest v) :: dictOfLoop fuel (rest.filter (fun p => p.1 != k))

/-- `dictOf kvs` is the Python dict built by inserting the pairs of `kvs` in
order: keys appear in first-occurrence order, each bound to its last value. -/
def dictOf {α : Type} (kvs : List (String × α)) : List (String × α) :=
  dictOfLoop kvs.length kvs

/-- Python `dict.__setitem__`: update the value in place if the key is
present, otherwise append the pair. -/
def pyDictSet {α : Type} : List (String × α) → String → α → List (String × α)
  | [], k, v => [(k, v)]
  | (k2, v2) :: rest, k, v =>
      if k2 = k then (k2, v) :: rest else (k2, v2) :: pyDictSet rest k v

/-- Python `dict.pop(k, None)`: remove the entry with key `k` if present
(a dict holds at most one). -/
def pyPop {α : Type} : List (String × α) → String → List (String × α)
  | [], _ => []
  | (k2, v2) :: rest, k => if k2 = k then rest else (k2, v2) :: pyPop rest k

/-- Whether a byte is a UTF-8 continuation byte. -/
def isCont (b : Nat) : Prop := 0x80 ≤ b ∧ b ≤ 0xBF

instance (b : Nat) : Decidable (isCont b) := by unfold isCont; infer_instance

/-- Fuelled strict UTF-8 decoding loop: rejects overlong encodings, encoded
surrogates and code points above U+10FFFF, exactly as CPython's strict
`bytes.decode("utf-8")` does. -/
def utf8DecodeLoop : Nat → List Nat → List Char → Option String
  | 0, _, _ => none
  | _ + 1, [], acc => some (String.mk acc.reverse)
  | fuel + 1, b0 :: rest, acc =>
      if b0 < 0x80 then
        utf8DecodeLoop fuel rest (Char.ofNat b0 :: acc)
      else if 0xC2 ≤ b0 ∧ b0 ≤ 0xDF then
        match rest with
        | b1 :: r =>
            if isCont b1 then
              utf8DecodeLoop fuel r (Char.ofNat ((b0 - 0xC0) * 0x40 + (b1 - 0x80)) :: acc)
            else none
        | [] => none
      else if 0xE0 ≤ b0 ∧ b0 ≤ 0xEF then
        match rest with
        | b1 :: b2 :: r =>
            let lo1 := if b0 = 0xE0 then 0xA0 else 0x80
            let hi1 := if b0 = 0xED then 0x9F else 0xBF
            if (lo1 ≤ b1 ∧ b1 ≤ hi1) ∧ isCont b2 then
              utf8DecodeLoop fuel r
                (Char.ofNat ((b0 - 0xE0) * 0x1000 + (b1 - 0x80) * 0x40 + (b2 - 0x80)) :: acc)
            else none
        | _ => none
      else if 0xF0 ≤ b0 ∧ b0 ≤ 0xF4 then
        match rest with
        | b1 :: b2 :: b3 :: r =>
            let lo1 := if b0 = 0xF0 then 0x90 else 0x80
            let hi1 := if b0 = 0xF4 then 0x8F else 0xBF
            if (lo1 ≤ b1 ∧ b1 ≤ hi1) ∧ isCont b2 ∧ isCont b3 then
              utf8DecodeLoop fuel r
                (Char.ofNat ((b0 - 0xF0) * 0x40000 + (b1 - 0x80) * 0x1000 +
                  (b2 - 0x80) * 0x40 + (b3 - 0x80)) :: acc)
            else none
        | _ => none
      else none

/-- Python `bytes.decode("utf-8")` (strict): `none` models the raised
`UnicodeDecodeError`. -/
def utf8Decode (bs : List Nat) : Option String :=
  utf8DecodeLoop (bs.length + 1) bs []

/-- UTF-8 encoding of one character. -/
def utf8EncodeChar (c : Char) : List Nat :=
  let n := c.toNat
  if n < 0x80 then [n]
  else if n < 0x800 then [0xC0 + n / 0x40, 0x80 + n % 0x40]
  else if n < 0x10000 then
    [0xE0 + n / 0x1000, 0x80 + (n / 0x40) % 0x40, 0x80 + n % 0x40]
  else
    [0xF0 + n / 0x40000, 0x80 + (n / 0x1000) % 0x40, 0x80 + (n / 0x40) % 0x40, 0x80 + n % 0x40]

/-- Python `str.encode("utf-8")`: byte string literals such as
`b"Bad gateway ..."` are `utf8Encode` of the corresponding text. -/
def utf8Encode (s : String) : List Nat :=
  (s.toList.map utf8EncodeChar).flatten

/-- JSON insignificant whitespace, per Python's `json` module. -/
def skipWs (cs : List Char) : List Char :=
  cs.dropWhile (fun c => c == ' ' || c == '\t' || c == '\n' || c == '\r')

/-- Value of one hex digit. -/
def hexVal (c : Char) : Option Nat :=
  if '0' ≤ c ∧ c ≤ '9' then some (c.toNat - '0'.toNat)
  else if 'a' ≤ c ∧ c ≤ 'f' then some (c.toNat - 'a'.toNat + 10)
  else if 'A' ≤ c ∧ c ≤ 'F' then some (c.toNat - 'A'.toNat + 10)
  else none

/-- Parse exactly four hex digits. -/
def parseHex4 : List Char → Option (Nat × List Char)
  | c1 :: c2 :: c3 :: c4 :: rest => do
      let v1 ← hexVal c1
      let v2 ← hexVal c2
      let v3 ← hexVal c3
      let v4 ← hexVal c4
      some (((v1 * 16 + v2) * 16 + v3) * 16 + v4, rest)
  | _ => none

/-- Code point to character; lone surrogate halves (which Python can keep in
a `str` but Lean's `Char` cannot hold) map to U+FFFD. -/
def charOfCode (n : Nat) : Char :=
  if n < 0xD800 ∨ (0xDFFF < n ∧ n < 0x110000) then Char.ofNat n else '�'

/-- Body of a JSON string after the opening quote (fuelled; strict mode:
raw control characters below U+0020 are rejected). -/
def parseStringBody : Nat → List Char → List Char → Option (String × List Char)
  | 0, _, _ => none
  | _ + 1, [], _ => none
  | fuel + 1, c :: rest, acc =>
      if c = '"' then some (String.mk acc.reverse, rest)
      else if c = '\\' then
        match rest with
        | '"' :: r => parseStringBody fuel r ('"' :: acc)
        | '\\' :: r => parseStringBody fuel r ('\\' :: acc)
        | '/' :: r => parseStringBody fuel r ('/' :: acc)
        | 'b' :: r => parseStringBody fuel r ('\x08' :: acc)
        | 'f' :: r => parseStringBody fuel r ('\x0c' :: acc)
        | 'n' :: r => parseStringBody fuel r ('\n' :: acc)
        | 'r' :: r => parseStringBody fuel r ('\r' :: acc)
        | 't' :: r => parseStringBody fuel r ('\t' :: acc)
        | 'u' :: r =>
            match parseHex4 r with
            | none => none
            | some (n, r2) =>
                if 0xD800 ≤ n ∧ n ≤ 0xDBFF then
                  match r2 with
                  | '\\' :: 'u' :: r3 =>
                      match parseHex4 r3 with
                      | none => none
                      | some (m, r4) =>
                          if 0xDC00 ≤ m ∧ m ≤ 0xDFFF then
                            parseStringBody fuel r4
                              (charOfCode (0x10000 + (n - 0xD800) * 0x400 + (m - 0xDC00)) :: acc)
                          else parseStringBody fuel r2 (charOfCode n :: acc)
                  | _ => parseStringBody fuel r2 (charOfCode n :: acc)
                else parseStringBody fuel r2 (charOfCode n :: acc)
        | _ => none
      else if c.toNat < 0x20 then none
      else parseStringBody fuel rest (c :: acc)

/-- Longest digit run at the front. -/
def takeDigits (cs : List Char) : List Char × List Char :=
  cs.span (fun c => c.isDigit)

/-- Fraction and exponent tail of a JSON number; `pre` is the lexeme so far. -/
def numberTail (pre : String) (cs : List Char) : Option (String × List Char) :=
  let frac : Option (String × List Char) :=
    match cs with
    | '.' :: r =>
        match takeDigits r with
        | ([], _) => none
        | (ds, r2) => some ("." ++ String.mk ds, r2)
    | _ => some ("", cs)
  match frac with
  | none => none
  | some (fpart, cs2) =>
      match cs2 with
      | e :: r =>
          if e = 'e' ∨ e = 'E' then
            let se := match r with
              | '+' :: rr => ("+", rr)
              | '-' :: rr => ("-", rr)
              | _ => ("", r)
            match takeDigits se.2 with
            | ([], _) => none
            | (ds, r3) => some (pre ++ fpart ++ String.singleton e ++ se.1 ++ String.mk ds, r3)
          else some (pre ++ fpart, cs2)
      | [] => some (pre ++ fpart, [])

/-- A JSON number lexeme: `-?(0|[1-9][0-9]*)(\.[0-9]+)?([eE][+-]?[0-9]+)?`. -/
def parseNumber (cs : List Char) : Option (String × List Char) :=
  let sr : String × List Char :=
    match cs with
    | '-' :: r => ("-", r)
    | _ => ("", cs)
  match sr.2 with
  | '0' :: r => numberTail (sr.1 ++ "0") r
  | c :: r =>
      if c.isDigit then
        let p := takeDigits r
        numberTail (sr.1 ++ String.mk (c :: p.1)) p.2
      else none
  | [] => none

mutual

/-- Fuelled recursive-descent parse of one JSON value, modelling Python's
`json.JSONDecoder` (default settings, which also accept the `NaN`,
`Infinity` and `-Infinity` constants). -/
def parseValue : Nat → List Char → Option (Json × List Char)
  | 0, _ => none
  | fuel + 1, cs0 =>
      let cs := skipWs cs0
      match cs with
      | '{' :: rest => parseObjectBody fuel (skipWs rest)
      | '[' :: rest => parseArrayBody fuel (skipWs rest)
      | '"' :: rest =>
          (parseStringBody (rest.length + 1) rest []).map (fun p => (Json.str p.1, p.2))
      | 't' :: 'r' :: 'u' :: 'e' :: rest => some (Json.bool true, rest)
      | 'f' :: 'a' :: 'l' :: 's' :: 'e' :: rest => some (Json.bool false, rest)
      | 'n' :: 'u' :: 'l' :: 'l' :: rest => some (Json.null, rest)
      | 'N' :: 'a' :: 'N' :: rest => some (Json.num "NaN", rest)
      | 'I' :: 'n' :: 'f' :: 'i' :: 'n' :: 'i' :: 't' :: 'y' :: rest =>
          some (Json.num "Infinity", rest)
      | '-' :: 'I' :: 'n' :: 'f' :: 'i' :: 'n' :: 'i' :: 't' :: 'y' :: rest =>
          some (Json.num "-Infinity", rest)
      | _ => (parseNumber cs).map (fun p => (Json.num p.1, p.2))

/-- Object body after the opening brace (whitespace already skipped). -/
def parseObjectBody : Nat → List Char → Option (Json × List Char)
  | 0, _ => none
  | fuel + 1, cs =>
      match cs with
      | '}' :: rest => some (Json.obj [], rest)
      | _ => parseMembers fuel cs []

/-- Members of a JSON object; the finished pair list goes through `dictOf`
because Python builds a dict (duplicate keys: last one wins). -/
def parseMembers : Nat → List Char → List (String × Json) → Option (Json × List Char)
  | 0, _, _ => none
  | fuel + 1, cs, acc =>
      match cs with
      | '"' :: rest =>
          match parseStringBody (rest.length + 1) rest [] with
          | none => none
          | some (key, r2) =>
              match skipWs r2 with
              | ':' :: r3 =>
                  match parseValue fuel r3 with
                  | none => none
                  | some (v, r4) =>
                      match skipWs r4 with
                      | ',' :: r5 => parseMembers fuel (skipWs r5) ((key, v) :: acc)
                      | '}' :: r5 => some (Json.obj (dictOf ((key, v) :: acc).reverse), r5)
                      | _ => none
              | _ => none
      | _ => none

/-- Array body after the opening bracket (whitespace already skipped). -/
def parseArrayBody : Nat → List Char → Option (Json × List Char)
  | 0, _ => none
  | fuel + 1, cs =>
      match cs with
      | ']' :: rest => some (Json.arr [], rest)
      | _ => parseElements fuel cs []

/-- Elements of a JSON array. -/
def parseElements : Nat → List Char → List Json → Option (Json × List Char)
  | 0, _, _ => none
  | fuel + 1, cs, acc =>
      match parseValue fuel cs with
      | none => none
      | some (v, r) =>
          match skipWs r with
          | ',' :: r2 => parseElements fuel r2 (v :: acc)
          | ']' :: r2 => some (Json.arr (v :: acc).reverse, r2)
          | _ => none

end

/-- Python `json.loads` on a `str`: parse one value, then require only
whitespace up to the end of input. `none` models the raised
`json.JSONDecodeError` (a `ValueError`). -/
def pyJsonParse (s : String) : Option Json :=
  let cs := s.toList
  match parseValue (3 * cs.length + 3) cs with
  | some (v, rest) => if (skipWs rest).isEmpty then some v else none
  | none => none

/-- Python `json.loads` on `bytes`: decode (UTF-8, the `detect_encoding`
default for BOM-less input) then parse. `none` models the raised
`ValueError` (either `UnicodeDecodeError` or `JSONDecodeError`). -/
def json_loads (bs : List Nat) : Option Json :=
  match utf8Decode bs with
  | none => none
  | some s => pyJsonParse s

/-- Python `str.strip()` with no argument: remove leading and trailing
whitespace (modelled over the ASCII whitespace characters). -/
def pyStrip (s : String) : String :=
  let ws := fun c : Char => c == ' ' || c == '\t' || c == '\n' || c == '\r' || c == '\x0b' || c == '\x0c'
  String.mk (((s.toList.dropWhile ws).reverse.dropWhile ws).reverse)

/-- Left-to-right effectful map over `Option`, modelling a Python
comprehension in which evaluating any element may raise: the first raise
aborts the whole comprehension. -/
def mapOptList {α β : Type} (f : α → Option β) : List α → Option (List β)
  | [] => some []
  | x :: xs =>
      match f x, mapOptList f xs with
      | some y, some ys => some (y :: ys)
      | _, _ => none

/-! ## The gateway's data model (`project_y.py`) -/

namespace Options

def conn_timeout : Nat := 30

def read_timeout : Nat := 30

def default_schema : String := "http"

end Options

/-- `class Upstream(namedtuple(...))`. The `session` field (an aiohttp
connection-pool handle) is opaque to every claim and is omitted; issuing a
call through it is modelled by the `Outcome` oracle below. -/
structure Upstream where
  name : String
  host : String
  port : Nat
  endpoint : String
deriving DecidableEq

/-- `Upstream.url` property. -/
def Upstream.url (s : Upstream) : String :=
  Options.default_schema ++ "://" ++ s.host ++ ":" ++ toString s.port ++ s.endpoint

/-- `Upstream.host_port` property. -/
def Upstream.host_port (s : Upstream) : String :=
  s.host ++ ":" ++ toString s.port

/-- `class ApiResponse(namedtuple("ApiResponse", ["body", "status", "headers", "name"]))`. -/
structure ApiResponse where
  body : List Nat
  status : Nat
  headers : List (String × String)
  name : String

/-- `ApiResponse.transform`: `try: return json.loads(self.body) except
ValueError: return {"error": self.body.decode("utf-8")}`. The `except`
branch's own `.decode("utf-8")` can raise `UnicodeDecodeError`, which is not
caught (`none`). -/
def ApiResponse.transform (r : ApiResponse) : Option Json :=
  match json_loads r.body with
  | some v => some v
  | none =>
      match utf8Decode r.body with
      | some s => some (Json.obj [("error", Json.str s)])
      | none => none

/-- Declarative routing configuration (`routing_table`), session handles
omitted. -/
def service_a : Upstream := ⟨"service1", "0.0.0.0", 9091, "/api/test"⟩

def service_b : Upstream := ⟨"service2", "0.0.0.0", 9092, "/api/test"⟩

def service_c : Upstream := ⟨"service3", "0.0.0.0", 9093, "/api/test"⟩

def routing_table : List (String × List Upstream) :=
  [("service1", [service_a]), ("service2", [service_b]),
   ("service3", [service_c]), ("grouped", [service_a, service_b, service_c])]

/-- Diagnostic body of the unroutable-request branch (marker A). -/
def markerA : String := "Bad gateway #trace=0cf36ac4-b79e-4b74-85f1-fc823822c742"

/-- Diagnostic body of the connection-failure branch in `send_request`
(marker B). -/
def markerB : String := "Bad gateway #trace=0cf36ac4-b79e-4b74-85f1-fc823822c743"

/-- Diagnostic body of the body-read-failure branch in `send_request`
(marker C). -/
def markerC : String := "Bad gateway #trace=0cf36ac4-b79e-4b74-85f1-fc823822c744"

/-- Outcome of one outbound network call, the environment's side of
`srv.session.request` / `resp.read()`: the connection fails
(`ClientConnectorError`), the body read fails (`IOError`), or a real
response arrives. -/
inductive Outcome where
  | connError : Outcome
  | readError : Outcome
  | ok (status : Nat) (headers : List (String × String)) (body : List Nat) : Outcome

/-- The outbound HTTP call `send_request` puts on the wire:
`headers["Host"] = srv.host_port` then `srv.session.request(method, srv.url,
headers=headers, data=data)`. -/
structure IssuedCall where
  url : String
  method : String
  headers : List (String × String)
  data : Option (List Nat)

/-- The call `send_request srv method headers data` issues. -/
def outboundCall (srv : Upstream) (method : String) (headers : List (String × String))
    (data : Option (List Nat)) : IssuedCall :=
  ⟨srv.url, method, pyDictSet headers "Host" srv.host_port, data⟩

/-- `send_request`: translate one outbound call's outcome into an
`ApiResponse`. Connection failure and read failure each yield a synthetic
502 with empty headers and their own diagnostic marker; a real response is
returned with the target's name attached. -/
def send_request (srv : Upstream) (method : String) (headers : List (String × String))
    (data : Option (List Nat)) (outcome : Outcome) : ApiResponse :=
  let _call := outboundCall srv method headers data
  match outcome with
  | .connError => ⟨utf8Encode markerB, 502, [], srv.name⟩
  | .readError => ⟨utf8Encode markerC, 502, [], srv.name⟩
  | .ok status hdrs body => ⟨body, status, hdrs, srv.name⟩

/-- The fan-out in `gateway`: `asyncio.gather(*(send_request(srv, method,
headers.copy(), data) for srv in srvs))`. `gather` preserves order and the
copy of the inbound headers is value-identical, so the result is one
response per target in target order. `net` is the network environment:
the outcome of the call to each target. -/
def dispatch (srvs : List Upstream) (method : String) (inHeaders : List (String × String))
    (data : Option (List Nat)) (net : Upstream → Outcome) : List ApiResponse :=
  srvs.map (fun srv => send_request srv method inHeaders data (net srv))

/-- The outbound calls the fan-out issues, in target order. -/
def issuedCalls (srvs : List Upstream) (method : String) (inHeaders : List (String × String))
    (data : Option (List Nat)) : List IssuedCall :=
  srvs.map (fun srv => outboundCall srv method inHeaders data)

/-- Body of the single response the gateway hands back: raw bytes
(`web.Response(body=reply.body, ...)`), plain text (`web.Response(text=...)`),
or the `json.dumps` serialisation of a JSON value. The serialised form is
kept as the value being dumped. -/
inductive Body where
  | bytes (bs : List Nat) : Body
  | text (s : String) : Body
  | json (v : Json) : Body

/-- The `web.Response` the gateway returns to the original caller. -/
structure Response where
  status : Nat
  headers : List (String × String)
  body : Body

/-- One comparison step of `min(results, key=lambda r: r.status)`: Python's
`min` keeps the current best unless the next element's key is strictly
smaller (so the first element attaining the minimum wins). -/
def pickMin (best r : ApiResponse) : ApiResponse :=
  if r.status < best.status then r else best

/-- One element of the dict comprehension `{r.name: r.transform() for r in
results}`; evaluating it raises exactly when `transform` raises. -/
def entry (r : ApiResponse) : Option (String × Json) :=
  (ApiResponse.transform r).map (fun v => (r.name, v))

/-- The reconciliation step of `gateway` (lines 149-160): one response is
passed through verbatim; for several, the status is the minimum
(`min(results, key=lambda r: r.status)`), the headers are
`dict(results[0].headers)` minus `Content-Length` (`headers.pop`), and the
body is `json.dumps({r.name: r.transform() for r in results})`. `none`
models an exception escaping (`results` empty never happens in `gateway`;
a `transform` raise propagates; status and headers are computed before the
comprehension and cannot raise). -/
def reconcile : List ApiResponse → Option Response
  | [] => none
  | [reply] => some ⟨reply.status, reply.headers, Body.bytes reply.body⟩
  | r0 :: r1 :: rest =>
      match mapOptList entry (r0 :: r1 :: rest) with
      | none => none
      | some pairs =>
          some ⟨(List.foldl pickMin r0 (r1 :: rest)).status,
                pyPop (dictOf r0.headers) "Content-Length",
                Body.json (Json.obj (dictOf pairs))⟩

/-- The `gateway` handler: strip the route key, look it up
(`routing_table.get`), answer 502 with marker A when the key is absent or
maps to an empty list (`if not srvs`), otherwise fan out and reconcile.
Result: the response (`none` models an exception escaping the handler) and
the outbound calls issued while handling the request. -/
def gateway (routing : List (String × List Upstream)) (serviceRaw : String) (method : String)
    (inHeaders : List (String × String)) (reqBody : Option (List Nat))
    (net : Upstream → Outcome) : Option Response × List IssuedCall :=
  let upstream := pyStrip serviceRaw
  match List.lookup upstream routing with
  | none => (some ⟨502, [], Body.text markerA⟩, [])
  | some [] => (some ⟨502, [], Body.text markerA⟩, [])
  | some (s0 :: srest) =>
      (reconcile (dispatch (s0 :: srest) method inHeaders reqBody net),
       issuedCalls (s0 :: srest) method inHeaders reqBody)

/-! ## Concrete inputs used by witnesses and counterexamples -/

/-- A 503 response with a JSON body `1`. -/
def raW : ApiResponse := ⟨utf8Encode "1", 503, [("Content-Type", "application/json")], "service1"⟩

/-- A 200 response with a JSON body `2`. -/
def rbW : ApiResponse := ⟨utf8Encode "2", 200, [], "service2"⟩

/-- The aggregate the Reconciler produces for `[raW, rbW]`. -/
def aggW : Response :=
  ⟨200, [("Content-Type", "application/json")],
   Body.json (Json.obj [("service1", Json.num "1"), ("service2", Json.num "2")])⟩

/-- A response whose body is valid JSON. -/
def asciiJsonOk : ApiResponse := ⟨utf8Encode "{}", 200, [], "service1"⟩

/-- A response whose body, the single byte `0xFF`, is neither valid JSON
nor valid UTF-8. -/
def invalidUtf8 : ApiResponse := ⟨[0xFF], 200, [], "service2"⟩

/-- First of two responses sharing the source name `svc`. -/
def dupA : ApiResponse := ⟨utf8Encode "1", 200, [], "svc"⟩

/-- Second of two responses sharing the source name `svc`. -/
def dupB : ApiResponse := ⟨utf8Encode "2", 200, [], "svc"⟩

/-- The aggregate for `[dupA, dupB]`: the dict comprehension collapses the
duplicate key, leaving one entry for two responses. -/
def aggDup : Response := ⟨200, [], Body.json (Json.obj [("svc", Json.num "2")])⟩

/-- A response named `svc2` whose body `notjson` fails to parse. -/
def dupC : ApiResponse := ⟨utf8Encode "notjson", 200, [], "svc2"⟩

/-- A response also named `svc2` whose body `3` parses. -/
def dupD : ApiResponse := ⟨utf8Encode "3", 200, [], "svc2"⟩

/-- The aggregate for `[dupC, dupD]`: the later duplicate entry overwrote
the error entry of the earlier one. -/
def aggDup2 : Response := ⟨200, [], Body.json (Json.obj [("svc2", Json.num "3")])⟩

/-- A 500 response whose body `oops` is not valid JSON. -/
def badW : ApiResponse := ⟨utf8Encode "oops", 500, [], "svcbad"⟩

/-- A 200 response whose body `7` is valid JSON. -/
def goodW : ApiResponse := ⟨utf8Encode "7", 200, [], "svcgood"⟩

/-- The aggregate for `[badW, goodW]`: the unparsable body degrades to an
error entry, the parsable one is kept, the status is the minimum. -/
def aggBG : Response :=
  ⟨200, [],
   Body.json (Json.obj
     [("svcbad", Json.obj [("error", Json.str "oops")]), ("svcgood", Json.num "7")])⟩

/-- A first response carrying a `Content-Length` header among others. -/
def rhW : ApiResponse :=
  ⟨utf8Encode "1", 200,
   [("Content-Type", "application/json"), ("Content-Length", "1"), ("X-Extra", "b")], "s1"⟩

/-- A second response with its own headers, which must not leak into the
aggregate. -/
def riW : ApiResponse := ⟨utf8Encode "2", 404, [("Content-Length", "9")], "s2"⟩

/-- The aggregate for `[rhW, riW]`: first response's headers minus
`Content-Length`; nothing from the second response's headers. -/
def aggHW : Response :=
  ⟨200, [("Content-Type", "application/json"), ("X-Extra", "b")],
   Body.json (Json.obj [("s1", Json.num "1"), ("s2", Json.num "2")])⟩

/-! ## Helper lemmas -/

theorem lastVal_of_not_mem {α : Type} (k : String) :
    ∀ (xs : List (String × α)) (d : α), k ∉ xs.map Prod.fst → lastVal k xs d = d := by
  intro xs
  induction xs with
  | nil => intro d _; rfl
  | cons p rest ih =>
    intro d hk
    obtain ⟨k2, v⟩ := p
    simp only [List.map_cons, List.mem_cons] at hk
    push_neg at hk
    rw [lastVal, if_neg (fun he => hk.1 he.symm)]
    exact ih d hk.2

theorem dictOfLoop_eq_self {α : Type} :
    ∀ (n : Nat) (xs : List (String × α)), xs.length ≤ n →
      (xs.map Prod.fst).Nodup → dictOfLoop n xs = xs := by
  intro n
  induction n with
  | zero =>
    intro xs hlen _
    rw [List.length_eq_zero.mp (Nat.le_zero.mp hlen)]
    rfl
  | succ n ih =>
    intro xs hlen hnodup
    match xs with
    | [] => rfl
    | (k, v) :: rest =>
      simp only [List.map_cons, List.nodup_cons, List.mem_map] at hnodup
      obtain ⟨hk, hrest⟩ := hnodup
      have hfil : rest.filter (fun p => p.1 != k) = rest := by
        rw [List.filter_eq_self]
        intro p hp
        exact bne_iff_ne.mpr (fun he => hk ⟨p, hp, he⟩)
      have hlast : lastVal k rest v = v := by
        apply lastVal_of_not_mem
        intro hmem
        rcases List.mem_map.mp hmem with ⟨p, hp, he⟩
        exact hk ⟨p, hp, he⟩
      rw [dictOfLoop, hlast, hfil, ih rest (by simpa using Nat.le_of_succ_le_succ hlen) hrest]

theorem dictOf_eq_self {α : Type} (xs : List (String × α))
    (hnodup : (xs.map Prod.fst).Nodup) : dictOf xs = xs :=
  dictOfLoop_eq_self xs.length xs (Nat.le_refl _) hnodup

theorem pyPop_eq_filter {α : Type} :
    ∀ (xs : List (String × α)) (k : String), (xs.map Prod.fst).Nodup →
      pyPop xs k = xs.filter (fun p => p.1 != k) := by
  intro xs
  induction xs with
  | nil => intro k _; rfl
  | cons p rest ih =>
    intro k hnodup
    obtain ⟨k2, v2⟩ := p
    simp only [List.map_cons, List.nodup_cons, List.mem_map] at hnodup
    obtain ⟨hk, hrest⟩ := hnodup
    by_cases he : k2 = k
    · subst he
      have hfil : rest.filter (fun p => p.1 != k2) = rest := by
        rw [List.filter_eq_self]
        intro q hq
        exact bne_iff_ne.mpr (fun heq => hk ⟨q, hq, heq⟩)
      rw [pyPop, if_pos rfl, List.filter_cons_of_neg (by simp), hfil]
    · rw [pyPop, if_neg he, List.filter_cons_of_pos (by simpa using he), ih k hrest]

theorem mapOptList_entry_fst :
    ∀ (rs : List ApiResponse) (ps : List (String × Json)),
      mapOptList entry rs = some ps → ps.map Prod.fst = rs.map ApiResponse.name := by
  intro rs
  induction rs with
  | nil =>
    intro ps h
    injection h with h
    rw [← h]
    rfl
  | cons r rest ih =>
    intro ps h
    rw [mapOptList] at h
    cases he : entry r with
    | none => rw [he] at h; cases h
    | some y =>
      cases ht : mapOptList entry rest with
      | none => rw [he, ht] at h; cases h
      | some ys =>
        rw [he, ht] at h
        injection h with h
        subst h
        rcases Option.map_eq_some'.mp he with ⟨v, _, hv⟩
        simp only [List.map_cons, ih ys ht, ← hv]

theorem mapOptList_entry_mem :
    ∀ (rs : List ApiResponse) (ps : List (String × Json)),
      mapOptList entry rs = some ps →
      ∀ r ∈ rs, ∃ v, ApiResponse.transform r = some v ∧ (r.name, v) ∈ ps := by
  intro rs
  induction rs with
  | nil => intro ps _ r hr; exact absurd hr (List.not_mem_nil r)
  | cons q rest ih =>
    intro ps h r hr
    rw [mapOptList] at h
    cases he : entry q with
    | none => rw [he] at h; cases h
    | some y =>
      cases ht : mapOptList entry rest with
      | none => rw [he, ht] at h; cases h
      | some ys =>
        rw [he, ht] at h
        injection h with h
        subst h
        rcases List.mem_cons.mp hr with rfl | hr
        · rcases Option.map_eq_some'.mp he with ⟨v, htr, hv⟩
          exact ⟨v, htr, by rw [← hv]; exact List.mem_cons_self _ _⟩
        · rcases ih ys ht r hr with ⟨v, htr, hm⟩
          exact ⟨v, htr, List.mem_cons_of_mem _ hm⟩

theorem pickMin_status_le_left (b r : ApiResponse) : (pickMin b r).status ≤ b.status := by
  unfold pickMin
  split <;> omega

theorem pickMin_status_le_right (b r : ApiResponse) : (pickMin b r).status ≤ r.status := by
  unfold pickMin
  split <;> omega

theorem foldl_pickMin_mem :
    ∀ (rs : List ApiResponse) (b : ApiResponse),
      List.foldl pickMin b rs = b ∨ List.foldl pickMin b rs ∈ rs := by
  intro rs
  induction rs with
  | nil => intro b; exact Or.inl rfl
  | cons r rest ih =>
    intro b
    rw [List.foldl_cons]
    rcases ih (pickMin b r) with h | h
    · rw [h]
      unfold pickMin
      split
      · exact Or.inr (List.mem_cons_self r rest)
      · exact Or.inl rfl
    · exact Or.inr (List.mem_cons_of_mem r h)

theorem foldl_pickMin_le :
    ∀ (rs : List ApiResponse) (b : ApiResponse),
      (List.foldl pickMin b rs).status ≤ b.status ∧
      ∀ r ∈ rs, (List.foldl pickMin b rs).status ≤ r.status := by
  intro rs
  induction rs with
  | nil =>
    intro b
    exact ⟨Nat.le_refl _, fun r hr => absurd hr (List.not_mem_nil r)⟩
  | cons r rest ih =>
    intro b
    rw [List.foldl_cons]
    obtain ⟨h1, h2⟩ := ih (pickMin b r)
    refine ⟨Nat.le_trans h1 (pickMin_status_le_left b r), ?_⟩
    intro q hq
    rcases List.mem_cons.mp hq with rfl | hq
    · exact Nat.le_trans h1 (pickMin_status_le_right b q)
    · exact h2 q hq

theorem send_request_name (srv : Upstream) (method : String)
    (headers : List (String × String)) (data : Option (List Nat)) (outcome : Outcome) :
    (send_request srv method headers data outcome).name = srv.name := by
  cases outcome <;> rfl

theorem exists_cons_cons_of_two_le {α : Type} (xs : List α) (h : 2 ≤ xs.length) :
    ∃ (a b : α) (t : List α), xs = a :: b :: t := by
  match xs with
  | [] => simp at h
  | [a] => simp at h
  | a :: b :: t => exact ⟨a, b, t, rfl⟩

/-! ## Claims -/

/-- C1: for every response list of length exactly one, the reconciliation
step returns the sole upstream response unchanged — same status, same
headers, byte-identical body. -/
theorem c1_reconcile_single (r : ApiResponse) :
    reconcile [r] = some ⟨r.status, r.headers, Body.bytes r.body⟩ := rfl

/-- C2: for every response list of length at least two for which the
reconciliation step returns an aggregate, the aggregate status equals the
minimum of the responses' status codes — it is attained by some response
and is a lower bound for all of them. -/
theorem c2_reconcile_status_min (results : List ApiResponse) (agg : Response)
    (hlen : 2 ≤ results.length) (h : reconcile results = some agg) :
    agg.status ∈ results.map ApiResponse.status ∧
    ∀ r ∈ results, agg.status ≤ r.status := by
  obtain ⟨r0, r1, rest, rfl⟩ := exists_cons_cons_of_two_le results hlen
  rw [reconcile] at h
  cases hm : mapOptList entry (r0 :: r1 :: rest) with
  | none => rw [hm] at h; cases h
  | some pairs =>
    rw [hm] at h
    injection h with h
    subst h
    constructor
    · rcases foldl_pickMin_mem (r1 :: rest) r0 with hb | hb
      · show (List.foldl pickMin r0 (r1 :: rest)).status ∈ _
        rw [hb]
        exact List.mem_map_of_mem ApiResponse.status (List.mem_cons_self r0 (r1 :: rest))
      · exact List.mem_map_of_mem ApiResponse.status (List.mem_cons_of_mem r0 hb)
    · intro r hr
      rcases List.mem_cons.mp hr with rfl | hr
      · exact (foldl_pickMin_le (r1 :: rest) r).1
      · exact (foldl_pickMin_le (r1 :: rest) r0).2 r hr

/-- Witness for C2: the concrete pair `[raW, rbW]` with statuses 503 and
200 aggregates to status 200. -/
theorem c2_reconcile_status_min_witness :
    aggW.status ∈ [raW, rbW].map ApiResponse.status ∧
    ∀ r ∈ [raW, rbW], aggW.status ≤ r.status :=
  c2_reconcile_status_min [raW, rbW] aggW (by decide) rfl

/-- C3 counterexample: two responses sharing the source name `svc` produce
an aggregate whose body object has a single key, not one key per response —
the dict comprehension `{r.name: r.transform() for r in results}` collapses
duplicate names. -/
theorem c3_counterexample :
    reconcile [dupA, dupB] = some aggDup ∧
    ¬ ∃ kvs : List (String × Json), aggDup.body = Body.json (Json.obj kvs) ∧
        kvs.map Prod.fst = [dupA, dupB].map ApiResponse.name := by
  refine ⟨rfl, ?_⟩
  rintro ⟨kvs, hb, hk⟩
  simp only [aggDup] at hb
  injection hb with hb
  injection hb with hb
  rw [← hb] at hk
  simp [dupA, dupB, ApiResponse.name] at hk

/-- C3 (amended): for every response list of length at least two with
pairwise-distinct source names, if the reconciliation step returns an
aggregate, its body is a JSON object with exactly one key per response, in
order, each key that response's source name. -/
theorem c3_reconcile_keys_nodup (results : List ApiResponse) (agg : Response)
    (hlen : 2 ≤ results.length) (hnodup : (results.map ApiResponse.name).Nodup)
    (h : reconcile results = some agg) :
    ∃ kvs : List (String × Json), agg.body = Body.json (Json.obj kvs) ∧
      kvs.map Prod.fst = results.map ApiResponse.name := by
  obtain ⟨r0, r1, rest, rfl⟩ := exists_cons_cons_of_two_le results hlen
  rw [reconcile] at h
  cases hm : mapOptList entry (r0 :: r1 :: rest) with
  | none => rw [hm] at h; cases h
  | some pairs =>
    rw [hm] at h
    injection h with h
    subst h
    have hfst := mapOptList_entry_fst _ _ hm
    have hd : dictOf pairs = pairs := dictOf_eq_self pairs (by rw [hfst]; exact hnodup)
    exact ⟨pairs, by show Body.json _ = _; rw [hd], hfst⟩

/-- Witness for C3 (amended): `[raW, rbW]` with distinct names yields the
keys `service1`, `service2` in order. -/
theorem c3_reconcile_keys_nodup_witness :
    ∃ kvs : List (String × Json), aggW.body = Body.json (Json.obj kvs) ∧
      kvs.map Prod.fst = [raW, rbW].map ApiResponse.name :=
  c3_reconcile_keys_nodup [raW, rbW] aggW (by decide) (by decide) rfl

/-- C4 counterexample: when two responses share the name `svc2` and the
earlier one's body fails to parse, its `error` entry is overwritten by the
later response's parsed value, so the unparsable entry is not mapped as the
claim requires. -/
theorem c4_counterexample :
    json_loads dupC.body = none ∧ utf8Decode dupC.body = some "notjson" ∧
    reconcile [dupC, dupD] = some aggDup2 ∧
    ∀ kvs : List (String × Json), aggDup2.body = Body.json (Json.obj kvs) →
      ("svc2", Json.obj [("error", Json.str "notjson")]) ∉ kvs := by
  refine ⟨rfl, rfl, rfl, ?_⟩
  intro kvs hb hmem
  simp only [aggDup2] at hb
  injection hb with hb
  injection hb with hb
  rw [← hb] at hmem
  have hp := List.mem_singleton.mp hmem
  exact Json.noConfusion (congrArg Prod.snd hp)

/-- C4 (amended): for every response list of length at least two with
pairwise-distinct source names for which the reconciliation step returns an
aggregate, the body object maps each response whose body parses as JSON to
its parsed value, and each response whose body fails to parse (but decodes
as UTF-8 text) to the object with the single key `error` bound to that
text; no entry prevents the others from appearing. -/
theorem c4_reconcile_entries_nodup (results : List ApiResponse) (agg : Response)
    (hlen : 2 ≤ results.length) (hnodup : (results.map ApiResponse.name).Nodup)
    (h : reconcile results = some agg) :
    ∃ kvs : List (String × Json), agg.body = Body.json (Json.obj kvs) ∧
      ∀ r ∈ results,
        (∀ v, json_loads r.body = some v → (r.name, v) ∈ kvs) ∧
        (∀ s, json_loads r.body = none → utf8Decode r.body = some s →
          (r.name, Json.obj [("error", Json.str s)]) ∈ kvs) := by
  obtain ⟨r0, r1, rest, rfl⟩ := exists_cons_cons_of_two_le results hlen
  rw [reconcile] at h
  cases hm : mapOptList entry (r0 :: r1 :: rest) with
  | none => rw [hm] at h; cases h
  | some pairs =>
    rw [hm] at h
    injection h with h
    subst h
    have hfst := mapOptList_entry_fst _ _ hm
    have hd : dictOf pairs = pairs := dictOf_eq_self pairs (by rw [hfst]; exact hnodup)
    refine ⟨pairs, by show Body.json _ = _; rw [hd], ?_⟩
    intro r hr
    rcases mapOptList_entry_mem _ _ hm r hr with ⟨v, htr, hvmem⟩
    constructor
    · intro w hw
      rw [ApiResponse.transform, hw] at htr
      injection htr with htr
      rw [htr]
      exact hvmem
    · intro s hw hs
      rw [ApiResponse.transform, hw, hs] at htr
      injection htr with htr
      rw [htr]
      exact hvmem

/-- Witness for C4 (amended): `badW`'s body `oops` degrades to an `error`
entry while `goodW`'s body `7` is kept parsed, both present in the
aggregate. -/
theorem c4_reconcile_entries_nodup_witness :
    ∃ kvs : List (String × Json), aggBG.body = Body.json (Json.obj kvs) ∧
      ∀ r ∈ [badW, goodW],
        (∀ v, json_loads r.body = some v → (r.name, v) ∈ kvs) ∧
        (∀ s, json_loads r.body = none → utf8Decode r.body = some s →
          (r.name, Json.obj [("error", Json.str s)]) ∈ kvs) :=
  c4_reconcile_entries_nodup [badW, goodW] aggBG (by decide) (by decide) rfl

/-- C5: for every response list of length at least two whose first response
has distinct header names (headers are a string-to-string mapping), if the
reconciliation step returns an aggregate, its headers are exactly the first
response's headers with the `Content-Length` entry removed — every other
header survives in order and no header of a later response is included. -/
theorem c5_reconcile_headers (r0 r1 : ApiResponse) (rest : List ApiResponse) (agg : Response)
    (hnodup : (r0.headers.map Prod.fst).Nodup)
    (h : reconcile (r0 :: r1 :: rest) = some agg) :
    agg.headers = r0.headers.filter (fun kv => kv.1 != "Content-Length") ∧
    "Content-Length" ∉ agg.headers.map Prod.fst := by
  rw [reconcile] at h
  cases hm : mapOptList entry (r0 :: r1 :: rest) with
  | none => rw [hm] at h; cases h
  | some pairs =>
    rw [hm] at h
    injection h with h
    subst h
    have hp : pyPop (dictOf r0.headers) "Content-Length" =
        r0.headers.filter (fun kv => kv.1 != "Content-Length") := by
      rw [dictOf_eq_self _ hnodup, pyPop_eq_filter _ _ hnodup]
    refine ⟨hp, ?_⟩
    show "Content-Length" ∉ (pyPop (dictOf r0.headers) "Content-Length").map Prod.fst
    rw [hp]
    intro hmem
    rcases List.mem_map.mp hmem with ⟨kv, hkv, hfst⟩
    have hne := (List.mem_filter.mp hkv).2
    rw [hfst] at hne
    simp at hne

/-- Witness for C5: `rhW`'s headers lose `Content-Length`, keep
`Content-Type` and `X-Extra` in order, and nothing of `riW`'s headers
appears. -/
theorem c5_reconcile_headers_witness :
    aggHW.headers = rhW.headers.filter (fun kv => kv.1 != "Content-Length") ∧
    "Content-Length" ∉ aggHW.headers.map Prod.fst :=
  c5_reconcile_headers rhW riW [] aggHW (by decide) rfl

/-- C6 (code bug): the reconciliation step is not total. For the concrete
pair below, the second body (the byte `0xFF`) is neither valid JSON nor
valid UTF-8; `transform` catches the `json.loads` failure but its fallback
`self.body.decode("utf-8")` raises `UnicodeDecodeError`, which propagates
(`none`) instead of producing an aggregated response. -/
theorem c6_reconcile_not_total :
    utf8Decode invalidUtf8.body = none ∧
    ApiResponse.transform invalidUtf8 = none ∧
    reconcile [asciiJsonOk, invalidUtf8] = none :=
  ⟨rfl, rfl, rfl⟩

/-- C7: when the stripped route key is absent from the routing table or
maps to an empty target list, the gateway answers 502 with the fixed
diagnostic body carrying marker A — distinct from both dispatcher markers —
and issues no outbound call. -/
theorem c7_gateway_no_route (routing : List (String × List Upstream))
    (serviceRaw method : String) (inHeaders : List (String × String))
    (reqBody : Option (List Nat)) (net : Upstream → Outcome)
    (h : List.lookup (pyStrip serviceRaw) routing = none ∨
         List.lookup (pyStrip serviceRaw) routing = some []) :
    gateway routing serviceRaw method inHeaders reqBody net =
      (some ⟨502, [], Body.text markerA⟩, []) ∧
    markerA ≠ markerB ∧ markerA ≠ markerC := by
  refine ⟨?_, by decide, by decide⟩
  rcases h with h | h <;> simp [gateway, h]

/-- Witness for C7: the key `nosuch` (with surrounding whitespace) is not
in the repository's routing table; the gateway answers the marker-A 502
without calling any upstream. -/
theorem c7_gateway_no_route_witness :
    gateway routing_table " nosuch " "GET" [] none (fun _ => Outcome.connError) =
      (some ⟨502, [], Body.text markerA⟩, []) ∧
    markerA ≠ markerB ∧ markerA ≠ markerC :=
  c7_gateway_no_route routing_table " nosuch " "GET" [] none (fun _ => Outcome.connError)
    (Or.inl rfl)

/-- C8: a connection failure yields a synthetic 502 with empty headers, the
target's name and the marker-B body; a body-read failure yields a distinct
synthetic 502 with the marker-C body; and either failure is absorbed
per-target — the fan-out still yields one response for every target. -/
theorem c8_send_request_failures (srv : Upstream) (method : String)
    (headers : List (String × String)) (data : Option (List Nat)) :
    send_request srv method headers data Outcome.connError =
      ⟨utf8Encode markerB, 502, [], srv.name⟩ ∧
    send_request srv method headers data Outcome.readError =
      ⟨utf8Encode markerC, 502, [], srv.name⟩ ∧
    markerB ≠ markerC ∧
    ∀ (srvs : List Upstream) (net : Upstream → Outcome),
      (dispatch srvs method headers data net).length = srvs.length :=
  ⟨rfl, rfl, by decide, fun srvs _ => List.length_map srvs _⟩

/-- C9: the fan-out is length- and order-preserving — one response per
target, and the i-th response carries the i-th target's name as its source
name, whatever the per-target outcomes. -/
theorem c9_dispatch_shape (srvs : List Upstream) (method : String)
    (inHeaders : List (String × String)) (data : Option (List Nat))
    (net : Upstream → Outcome) :
    (dispatch srvs method inHeaders data net).length = srvs.length ∧
    ∀ (i : Nat) (h1 : i < (dispatch srvs method inHeaders data net).length)
      (h2 : i < srvs.length),
      ((dispatch srvs method inHeaders data net).get ⟨i, h1⟩).name =
        (srvs.get ⟨i, h2⟩).name := by
  refine ⟨List.length_map srvs _, ?_⟩
  intro i h1 h2
  simp only [List.get_eq_getElem, dispatch, List.getElem_map]
  exact send_request_name _ _ _ _ _

/-- Witness for C9: dispatching to `[service_a, service_b]` under total
connection failure still yields a first response named `service1`. -/
theorem c9_dispatch_shape_witness :
    ((dispatch [service_a, service_b] "GET" [] none
        (fun _ => Outcome.connError)).get ⟨0, by decide⟩).name =
      (([service_a, service_b] : List Upstream).get ⟨0, by decide⟩).name :=
  (c9_dispatch_shape [service_a, service_b] "GET" [] none
    (fun _ => Outcome.connError)).2 0 (by decide) (by decide)

end ProjectY
